import Mathlib

/-!
Shallow embedding of the expression interpreter in `src/interp.py` and proofs
about its evaluation semantics.

The Python source is a tree-walking evaluator over dataclass AST nodes
(`interp.py`, function `eval`, lines 151-306).  The embedding below mirrors it
node by node:

* Python `Literal = Union[int, bool, str]` becomes `LitVal`.
* The AST dataclasses become the constructors of `Expr`.
* Runtime values (literals plus `FunDef` closures) become `Value`.
* Python dicts used for `Env`/`Store` become association lists with unique
  keys; `setEnv` mimics dict item assignment (update in place, else append, so
  insertion order is preserved) and `lookupEnv` mimics `d[k]` / `k in d`.
* Python exceptions raised by the interpreter (and by the Python runtime for
  unsupported operand types) become the constructors of `Err`.
* Observable effects are made explicit: `eval` returns, besides the result,
  the remaining external input lines and the list of values printed by `Show`
  (output is returned even when evaluation fails, because `print` writes to
  stdout before an exception propagates).
* The real interpreter can recurse forever, so `eval` takes fuel; exhausting
  it yields the distinguished `Err.outOfFuel`, which corresponds to
  non-termination (or Python's RecursionError), never to a result the Python
  code could produce.
* `sys.stdin.isatty()` in the `Read` case is an ambient fact about the
  process; it is passed to `eval` as the boolean parameter `tty`.
-/

namespace Interp

/-- Python `Literal = Union[int, bool, str]` (interp.py line 9). -/
inductive LitVal where
  | int (n : Int)
  | bool (b : Bool)
  | str (s : String)
deriving DecidableEq

/-- The AST dataclasses of interp.py (lines 11-147).  `letE`, `ifE`, `showE`,
`and_`, `or_`, `not_` stand for the Python classes `Let`, `If`, `Show`, `And`,
`Or`, `Not` whose names are Lean keywords or core functions. -/
inductive Expr where
  | lit (v : LitVal)
  | add (left right : Expr)
  | sub (left right : Expr)
  | mul (left right : Expr)
  | div (left right : Expr)
  | neg (e : Expr)
  | and_ (left right : Expr)
  | or_ (left right : Expr)
  | not_ (e : Expr)
  | letE (n : String) (value : Expr) (body : Expr)
  | name (n : String)
  | eq (left right : Expr)
  | lt (left right : Expr)
  | ifE (cond then_ else_ : Expr)
  | concat (left right : Expr)
  | replace (string target replacement : Expr)
  | letfun (n param : String) (body inExpr : Expr)
  | app (funExpr argExpr : Expr)
  | assign (n : String) (value : Expr)
  | seq (first second : Expr)
  | reverseStr (e : Expr)
  | lengthStr (e : Expr)
  | showE (e : Expr)
  | read
deriving DecidableEq

/-- Runtime values: the three literal kinds plus `FunDef` closures
(interp.py lines 97-101).  The Python `FunDef` stores `param`, `body` and a
cyclic environment `env` that maps the function's own name back to the very
same `FunDef`.  A cyclic dict cannot be a Lean inductive value, so the closure
here stores the letfun name `fname` and the environment `env` as it was
*before* the self binding was added; the self binding is re-created at every
application (see the `app` case of `eval`), which yields the same observable
behavior as the Python cycle. -/
inductive Value where
  | int (n : Int)
  | bool (b : Bool)
  | str (s : String)
  | closure (fname param : String) (body : Expr) (env : List (String × Value))

/-- Environments and stores are Python dicts from names to values
(interp.py lines 148-149). -/
abbrev Env := List (String × Value)

/-- Python `d[k]` / `k in d`. -/
def lookupEnv : Env → String → Option Value
  | [], _ => none
  | (k, v) :: rest, n => if k = n then some v else lookupEnv rest n

/-- Python dict item assignment `d[k] = v`: replaces the value in place when
the key exists (keeping its position), otherwise appends the new binding. -/
def setEnv : Env → String → Value → Env
  | [], n, v => [(n, v)]
  | (k, w) :: rest, n, v =>
      if k = n then (k, v) :: rest else (k, w) :: setEnv rest n v

/-- Embed a literal into the value domain. -/
def litToValue : LitVal → Value
  | .int n => .int n
  | .bool b => .bool b
  | .str s => .str s

/-- Python treats `bool` as a subclass of `int`: `True` is `1` and `False` is
`0` in every arithmetic or comparison context.  `pyToNum` returns the numeric
content of a value, or `none` when the value is not numeric. -/
def pyToNum : Value → Option Int
  | .int n => some n
  | .bool b => some (if b then 1 else 0)
  | _ => none

/-- Python `"s" * n` (and `n * "s"`): the string repeated `n` times, empty
when `n ≤ 0`. -/
def strRepeat (s : String) (n : Int) : String :=
  String.join (List.replicate n.toNat s)

/-- Python `s[::-1]` (interp.py line 285). -/
def strReverse (s : String) : String :=
  String.mk s.data.reverse

/-- Python binary `+`: numeric addition when both operands are numeric
(ints or bools), string concatenation when both are strings, otherwise a
host `TypeError` (`none`). -/
def pyAdd (a b : Value) : Option Value :=
  match a, b with
  | .str s, .str t => some (.str (s ++ t))
  | _, _ =>
    match pyToNum a, pyToNum b with
    | some x, some y => some (.int (x + y))
    | _, _ => none

/-- Python binary `-`: defined only for numeric operands. -/
def pySub (a b : Value) : Option Value :=
  match pyToNum a, pyToNum b with
  | some x, some y => some (.int (x - y))
  | _, _ => none

/-- Python binary `*`: numeric product, or string repetition when one operand
is a string and the other numeric; anything else is a host `TypeError`. -/
def pyMul (a b : Value) : Option Value :=
  match a, b with
  | .str s, _ =>
    match pyToNum b with
    | some n => some (.str (strRepeat s n))
    | none => none
  | _, .str s =>
    match pyToNum a with
    | some n => some (.str (strRepeat s n))
    | none => none
  | _, _ =>
    match pyToNum a, pyToNum b with
    | some x, some y => some (.int (x * y))
    | _, _ => none

/-- Python `//` on numeric operands: floor division (rounds toward negative
infinity), `Int.fdiv` in Lean.  The zero-divisor test happens in `eval`, not
here. -/
def pyDiv (a b : Value) : Option Value :=
  match pyToNum a, pyToNum b with
  | some x, some y => some (.int (Int.fdiv x y))
  | _, _ => none

/-- Python unary `-`: defined only for numeric operands. -/
def pyNeg (a : Value) : Option Value :=
  match pyToNum a with
  | some x => some (.int (-x))
  | none => none

/-- Python `<`: numeric comparison (bools count as 0/1), lexicographic
comparison between two strings, otherwise a host `TypeError` (`none`). -/
def pyLt (a b : Value) : Option Bool :=
  match a, b with
  | .str s, .str t => some (decide (s < t))
  | _, _ =>
    match pyToNum a, pyToNum b with
    | some x, some y => some (decide (x < y))
    | _, _ => none

mutual
/-- Python `==` on runtime values: numeric values compare by numeric content
(so `True == 1`), strings compare as strings, different non-numeric variants
compare unequal without error, and `FunDef`s compare field by field
(dataclass equality).  For closures the comparison uses the capture-time
components stored in the Lean representation; the Python original compares
the cyclic dicts, which agrees whenever the comparison terminates. -/
def pyEq : Value → Value → Bool
  | .int x, .int y => x == y
  | .int x, .bool b => x == (if b then 1 else 0)
  | .bool b, .int y => (if b then (1 : Int) else 0) == y
  | .bool a, .bool b => a == b
  | .str s, .str t => s == t
  | .closure f₁ p₁ b₁ e₁, .closure f₂ p₂ b₂ e₂ =>
      f₁ == f₂ && p₁ == p₂ && b₁ == b₂ && envPyEq e₁ e₂
  | _, _ => false

/-- Python `==` on environments (dicts), comparing bindings pointwise. -/
def envPyEq : List (String × Value) → List (String × Value) → Bool
  | [], [] => true
  | (k₁, v₁) :: r₁, (k₂, v₂) :: r₂ =>
      k₁ == k₂ && pyEq v₁ v₂ && envPyEq r₁ r₂
  | _, _ => false
end

/-- Python `int(s)` on the forms the interpreter can meet: surrounding
whitespace is ignored, an optional sign precedes the digits.  (Underscore
separators and non-ASCII digits, which Python also accepts, are not
modelled; none of the properties below depends on them.) -/
def pyToInt (s : String) : Option Int :=
  let t := s.trim
  let (sgn, ds) :=
    if t.startsWith ("-") then ((-1 : Int), t.drop 1)
    else if t.startsWith ("+") then ((1 : Int), t.drop 1)
    else ((1 : Int), t)
  match ds.toNat? with
  | some n => some (sgn * n)
  | none => none

/-- The exceptions the interpreter can raise, one constructor per raise site
(plus the host runtime's own `TypeError`s):
* `unboundName` — `NameError` in the `Name` case (line 206);
* `undeclaredAssign` — `NameError` in the `Assign` case (line 260);
* `typeMismatch` — `TypeError` raised by an explicit `isinstance` check
  (`And`/`Or`/`Not`/`If`/`Concat`/`Replace`/`ReverseStr`/`LengthStr`);
* `hostTypeError` — `TypeError` raised by the Python runtime for an
  unsupported operand combination in `+`, `-`, `*`, `//`, unary `-`, `<`;
* `notAFunction` — `TypeError` "... is not a function" in the `App` case
  (line 254);
* `divisionByZero` — `ZeroDivisionError` (line 173);
* `chainedComparison` — `SyntaxError` (line 211);
* `invalidInput` — `ValueError` (line 280);
* `eofAbort` — `EOFError` when `input()` meets end of input;
* `outOfFuel` — the evaluation did not finish within the given fuel. -/
inductive Err where
  | unboundName
  | undeclaredAssign
  | typeMismatch
  | hostTypeError
  | notAFunction
  | divisionByZero
  | chainedComparison
  | invalidInput
  | eofAbort
  | outOfFuel
deriving DecidableEq

/-- Outcome of one evaluation: a value together with the (possibly mutated)
store, or a raised exception.  (When an exception propagates, the Python
caller never looks at the store again, so the store is not carried on the
error path.) -/
inductive Res where
  | ok (v : Value) (store : Env)
  | err (e : Err)

/-- The `Eq` case of interp.py (line 210) rejects a left operand that is
syntactically an `Eq` or `Lt` node. -/
def isEqOrLt : Expr → Bool
  | .eq _ _ => true
  | .lt _ _ => true
  | _ => false

/-- The interpreter `eval` of interp.py (lines 151-306), with fuel.

`eval fuel tty e env store inp = (res, inp', out)` runs `e` with environment
`env`, store `store`, and pending input lines `inp`; `tty` is the value of
`sys.stdin.isatty()`.  `inp'` is the input remaining afterwards and `out` the
values printed by `Show`, in order — both are reported also when `res` is an
error, because input consumption and printing are irrevocable effects.

Faithful transcription notes:
* `Add`/`Sub`/`Mul`/`Neg`/`Eq`/`Lt`/`Concat`/`Replace`/`Let`/`Letfun`/`App`/
  `ReverseStr`/`LengthStr` call `eval` without the store argument, which the
  Python default turns into a fresh empty dict — hence the `[]` store in
  those recursive calls, and the caller's `store` returned unchanged.
* `Div` (lines 170-174) evaluates its *right* operand first, tests it against
  `0` with Python `==` (so `False` also triggers `ZeroDivisionError`), and
  only then evaluates the left operand.
* `And`/`Or` evaluate both operands before any type check (no short-circuit).
* The `Read` case returns `42` without touching the input when stdin is not
  a tty (line 275); otherwise it consumes one line and parses it. -/
def eval : Nat → Bool → Expr → Env → Env → List String →
    Res × List String × List Value
  | 0, _, _, _, _, inp => (.err .outOfFuel, inp, [])
  | fuel + 1, tty, e, env, store, inp =>
    match e with
    | .lit v => (.ok (litToValue v) store, inp, [])
    | .add l r =>
      match eval fuel tty l env [] inp with
      | (.ok lv _, inp₁, o₁) =>
        match eval fuel tty r env [] inp₁ with
        | (.ok rv _, inp₂, o₂) =>
          match pyAdd lv rv with
          | some v => (.ok v store, inp₂, o₁ ++ o₂)
          | none => (.err .hostTypeError, inp₂, o₁ ++ o₂)
        | (.err er, inp₂, o₂) => (.err er, inp₂, o₁ ++ o₂)
      | (.err er, inp₁, o₁) => (.err er, inp₁, o₁)
    | .sub l r =>
      match eval fuel tty l env [] inp with
      | (.ok lv _, inp₁, o₁) =>
        match eval fuel tty r env [] inp₁ with
        | (.ok rv _, inp₂, o₂) =>
          match pySub lv rv with
          | some v => (.ok v store, inp₂, o₁ ++ o₂)
          | none => (.err .hostTypeError, inp₂, o₁ ++ o₂)
        | (.err er, inp₂, o₂) => (.err er, inp₂, o₁ ++ o₂)
      | (.err er, inp₁, o₁) => (.err er, inp₁, o₁)
    | .mul l r =>
      match eval fuel tty l env [] inp with
      | (.ok lv _, inp₁, o₁) =>
        match eval fuel tty r env [] inp₁ with
        | (.ok rv _, inp₂, o₂) =>
          match pyMul lv rv with
          | some v => (.ok v store, inp₂, o₁ ++ o₂)
          | none => (.err .hostTypeError, inp₂, o₁ ++ o₂)
        | (.err er, inp₂, o₂) => (.err er, inp₂, o₁ ++ o₂)
      | (.err er, inp₁, o₁) => (.err er, inp₁, o₁)
    | .div l r =>
      match eval fuel tty r env [] inp with
      | (.ok rv _, inp₁, o₁) =>
        if pyEq rv (.int 0) then (.err .divisionByZero, inp₁, o₁)
        else
          match eval fuel tty l env [] inp₁ with
          | (.ok lv _, inp₂, o₂) =>
            match pyDiv lv rv with
            | some v => (.ok v store, inp₂, o₁ ++ o₂)
            | none => (.err .hostTypeError, inp₂, o₁ ++ o₂)
          | (.err er, inp₂, o₂) => (.err er, inp₂, o₁ ++ o₂)
      | (.err er, inp₁, o₁) => (.err er, inp₁, o₁)
    | .neg e₁ =>
      match eval fuel tty e₁ env [] inp with
      | (.ok v _, inp₁, o₁) =>
        match pyNeg v with
        | some w => (.ok w store, inp₁, o₁)
        | none => (.err .hostTypeError, inp₁, o₁)
      | (.err er, inp₁, o₁) => (.err er, inp₁, o₁)
    | .and_ l r =>
      match eval fuel tty l env store inp with
      | (.ok lv s₁, inp₁, o₁) =>
        match eval fuel tty r env s₁ inp₁ with
        | (.ok rv s₂, inp₂, o₂) =>
          match lv, rv with
          | .bool b₁, .bool b₂ => (.ok (.bool (b₁ && b₂)) s₂, inp₂, o₁ ++ o₂)
          | _, _ => (.err .typeMismatch, inp₂, o₁ ++ o₂)
        | (.err er, inp₂, o₂) => (.err er, inp₂, o₁ ++ o₂)
      | (.err er, inp₁, o₁) => (.err er, inp₁, o₁)
    | .or_ l r =>
      match eval fuel tty l env store inp with
      | (.ok lv s₁, inp₁, o₁) =>
        match eval fuel tty r env s₁ inp₁ with
        | (.ok rv s₂, inp₂, o₂) =>
          match lv, rv with
          | .bool b₁, .bool b₂ => (.ok (.bool (b₁ || b₂)) s₂, inp₂, o₁ ++ o₂)
          | _, _ => (.err .typeMismatch, inp₂, o₁ ++ o₂)
        | (.err er, inp₂, o₂) => (.err er, inp₂, o₁ ++ o₂)
      | (.err er, inp₁, o₁) => (.err er, inp₁, o₁)
    | .not_ e₁ =>
      match eval fuel tty e₁ env store inp with
      | (.ok v s₁, inp₁, o₁) =>
        match v with
        | .bool b => (.ok (.bool (!b)) s₁, inp₁, o₁)
        | _ => (.err .typeMismatch, inp₁, o₁)
      | (.err er, inp₁, o₁) => (.err er, inp₁, o₁)
    | .letE n ve body =>
      match eval fuel tty ve env [] inp with
      | (.ok v _, inp₁, o₁) =>
        match eval fuel tty body (setEnv env n v) [] inp₁ with
        | (.ok bv _, inp₂, o₂) => (.ok bv store, inp₂, o₁ ++ o₂)
        | (.err er, inp₂, o₂) => (.err er, inp₂, o₁ ++ o₂)
      | (.err er, inp₁, o₁) => (.err er, inp₁, o₁)
    | .name n =>
      match lookupEnv env n with
      | some v => (.ok v store, inp, [])
      | none => (.err .unboundName, inp, [])
    | .eq l r =>
      if isEqOrLt l then (.err .chainedComparison, inp, [])
      else
        match eval fuel tty l env [] inp with
        | (.ok lv _, inp₁, o₁) =>
          match eval fuel tty r env [] inp₁ with
          | (.ok rv _, inp₂, o₂) =>
              (.ok (.bool (pyEq lv rv)) store, inp₂, o₁ ++ o₂)
          | (.err er, inp₂, o₂) => (.err er, inp₂, o₁ ++ o₂)
        | (.err er, inp₁, o₁) => (.err er, inp₁, o₁)
    | .lt l r =>
      match eval fuel tty l env [] inp with
      | (.ok lv _, inp₁, o₁) =>
        match eval fuel tty r env [] inp₁ with
        | (.ok rv _, inp₂, o₂) =>
          match pyLt lv rv with
          | some b => (.ok (.bool b) store, inp₂, o₁ ++ o₂)
          | none => (.err .hostTypeError, inp₂, o₁ ++ o₂)
        | (.err er, inp₂, o₂) => (.err er, inp₂, o₁ ++ o₂)
      | (.err er, inp₁, o₁) => (.err er, inp₁, o₁)
    | .ifE c t e₂ =>
      match eval fuel tty c env store inp with
      | (.ok cv s₁, inp₁, o₁) =>
        match cv with
        | .bool b =>
          match eval fuel tty (if b then t else e₂) env s₁ inp₁ with
          | (res, inp₂, o₂) => (res, inp₂, o₁ ++ o₂)
        | _ => (.err .typeMismatch, inp₁, o₁)
      | (.err er, inp₁, o₁) => (.err er, inp₁, o₁)
    | .concat l r =>
      match eval fuel tty l env [] inp with
      | (.ok lv _, inp₁, o₁) =>
        match eval fuel tty r env [] inp₁ with
        | (.ok rv _, inp₂, o₂) =>
          match lv, rv with
          | .str s, .str t => (.ok (.str (s ++ t)) store, inp₂, o₁ ++ o₂)
          | _, _ => (.err .typeMismatch, inp₂, o₁ ++ o₂)
        | (.err er, inp₂, o₂) => (.err er, inp₂, o₁ ++ o₂)
      | (.err er, inp₁, o₁) => (.err er, inp₁, o₁)
    | .replace se te re =>
      match eval fuel tty se env [] inp with
      | (.ok sv _, inp₁, o₁) =>
        match eval fuel tty te env [] inp₁ with
        | (.ok tv _, inp₂, o₂) =>
          match eval fuel tty re env [] inp₂ with
          | (.ok rv _, inp₃, o₃) =>
            match sv, tv, rv with
            | .str s, .str t, .str r =>
                (.ok (.str (String.replace s t r)) store, inp₃, o₁ ++ o₂ ++ o₃)
            | _, _, _ => (.err .typeMismatch, inp₃, o₁ ++ o₂ ++ o₃)
          | (.err er, inp₃, o₃) => (.err er, inp₃, o₁ ++ o₂ ++ o₃)
        | (.err er, inp₂, o₂) => (.err er, inp₂, o₁ ++ o₂)
      | (.err er, inp₁, o₁) => (.err er, inp₁, o₁)
    | .letfun n p body inExpr =>
      match eval fuel tty inExpr (setEnv env n (.closure n p body env)) [] inp with
      | (.ok v _, inp₁, o₁) => (.ok v store, inp₁, o₁)
      | (.err er, inp₁, o₁) => (.err er, inp₁, o₁)
    | .app fe ae =>
      match eval fuel tty fe env [] inp with
      | (.ok fv _, inp₁, o₁) =>
        match eval fuel tty ae env [] inp₁ with
        | (.ok av _, inp₂, o₂) =>
          match fv with
          | .closure fn p body cenv =>
            match eval fuel tty body
                (setEnv (setEnv cenv fn (.closure fn p body cenv)) p av) [] inp₂ with
            | (.ok bv _, inp₃, o₃) => (.ok bv store, inp₃, o₁ ++ o₂ ++ o₃)
            | (.err er, inp₃, o₃) => (.err er, inp₃, o₁ ++ o₂ ++ o₃)
          | _ => (.err .notAFunction, inp₂, o₁ ++ o₂)
        | (.err er, inp₂, o₂) => (.err er, inp₂, o₁ ++ o₂)
      | (.err er, inp₁, o₁) => (.err er, inp₁, o₁)
    | .assign n ve =>
      let store₁ :=
        match lookupEnv env n, lookupEnv store n with
        | some v, none => setEnv store n v
        | _, _ => store
      match lookupEnv store₁ n with
      | none => (.err .undeclaredAssign, inp, [])
      | some _ =>
        match eval fuel tty ve env store₁ inp with
        | (.ok v s₂, inp₁, o₁) => (.ok v (setEnv s₂ n v), inp₁, o₁)
        | (.err er, inp₁, o₁) => (.err er, inp₁, o₁)
    | .seq a b =>
      match eval fuel tty a env store inp with
      | (.ok _ s₁, inp₁, o₁) =>
        match eval fuel tty b env s₁ inp₁ with
        | (res, inp₂, o₂) => (res, inp₂, o₁ ++ o₂)
      | (.err er, inp₁, o₁) => (.err er, inp₁, o₁)
    | .reverseStr e₁ =>
      match eval fuel tty e₁ env [] inp with
      | (.ok v _, inp₁, o₁) =>
        match v with
        | .str s => (.ok (.str (strReverse s)) store, inp₁, o₁)
        | _ => (.err .typeMismatch, inp₁, o₁)
      | (.err er, inp₁, o₁) => (.err er, inp₁, o₁)
    | .lengthStr e₁ =>
      match eval fuel tty e₁ env [] inp with
      | (.ok v _, inp₁, o₁) =>
        match v with
        | .str s => (.ok (.int (s.length : Int)) store, inp₁, o₁)
        | _ => (.err .typeMismatch, inp₁, o₁)
      | (.err er, inp₁, o₁) => (.err er, inp₁, o₁)
    | .showE e₁ =>
      match eval fuel tty e₁ env store inp with
      | (.ok v s₁, inp₁, o₁) => (.ok v s₁, inp₁, o₁ ++ [v])
      | (.err er, inp₁, o₁) => (.err er, inp₁, o₁)
    | .read =>
      if tty then
        match inp with
        | [] => (.err .eofAbort, inp, [])
        | s :: rest =>
          match pyToInt s with
          | some n => (.ok (.int n) store, rest, [])
          | none => (.err .invalidInput, rest, [])
      else (.ok (.int 42) store, inp, [])

/-- `true` exactly for closure values (`isinstance(func, FunDef)` in the
`App` case, interp.py line 249). -/
def isClosure : Value → Bool
  | .closure _ _ _ _ => true
  | _ => false

/-- A node whose recursive `eval` calls omit the store argument (so the
sub-expressions run against a fresh empty store, the Python default
`store = None` → `{}`): its behavior is the behavior with the empty store,
and the caller's store comes back unchanged. -/
def DropsStore (e : Expr) : Prop :=
  ∀ fuel tty env st inp,
    eval fuel tty e env st inp =
      match eval fuel tty e env [] inp with
      | (.ok v _, i, o) => (.ok v st, i, o)
      | (.err er, i, o) => (.err er, i, o)

/-- Left-to-right evaluation of a binary form built by `mk`: whenever the
compound evaluates to a value, there is a successful run of the left operand
on the incoming input, followed by a successful run of the right operand
starting exactly on the input the left operand left over, and the observable
output of the compound begins with the left operand's output followed by the
right operand's output. -/
def LeftThenRight (mk : Expr → Expr → Expr) : Prop :=
  ∀ fuel tty l r env st inp v s inpF out,
    eval (fuel + 1) tty (mk l r) env st inp = (.ok v s, inpF, out) →
    ∃ stl v₁ s₁ inp₁ o₁ str₂ v₂ s₂ inp₂ o₂ rest,
      eval fuel tty l env stl inp = (.ok v₁ s₁, inp₁, o₁) ∧
      eval fuel tty r env str₂ inp₁ = (.ok v₂ s₂, inp₂, o₂) ∧
      out = o₁ ++ o₂ ++ rest

/-- The order the `Div` case actually uses (interp.py lines 170-174): the
*right* operand is evaluated first, its value is tested against zero, and
only then is the left operand evaluated; the compound's output is the right
operand's output followed by the left operand's. -/
def DivRightFirst : Prop :=
  ∀ fuel tty l r env st inp v s inpF out,
    eval (fuel + 1) tty (.div l r) env st inp = (.ok v s, inpF, out) →
    ∃ v₂ s₂ inp₁ o₂ v₁ s₁ o₁,
      eval fuel tty r env [] inp = (.ok v₂ s₂, inp₁, o₂) ∧
      pyEq v₂ (.int 0) = false ∧
      eval fuel tty l env [] inp₁ = (.ok v₁ s₁, inpF, o₁) ∧
      out = o₂ ++ o₁

/-- `Seq` passes the caller's store to its first sub-expression and the
store that run produces to the second (interp.py lines 264-266). -/
def SeqThreadsStore : Prop :=
  ∀ fuel tty a b env st inp v₁ s₁ inp₁ o₁,
    eval fuel tty a env st inp = (.ok v₁ s₁, inp₁, o₁) →
    eval (fuel + 1) tty (.seq a b) env st inp =
      (match eval fuel tty b env s₁ inp₁ with
       | (res, inp₂, o₂) => (res, inp₂, o₁ ++ o₂))

/-- `If` passes the caller's store to the condition and the condition's
resulting store to the selected branch (interp.py lines 216-220). -/
def IfThreadsStore : Prop :=
  ∀ fuel tty c t e env st inp bv s₁ inp₁ o₁,
    eval fuel tty c env st inp = (.ok (.bool bv) s₁, inp₁, o₁) →
    eval (fuel + 1) tty (.ifE c t e) env st inp =
      (match eval fuel tty (if bv then t else e) env s₁ inp₁ with
       | (res, inp₂, o₂) => (res, inp₂, o₁ ++ o₂))

/-- `And` passes the caller's store to its left operand and the left run's
store to the right operand (interp.py lines 179-184). -/
def AndThreadsStore : Prop :=
  ∀ fuel tty l r env st inp lv s₁ inp₁ o₁,
    eval fuel tty l env st inp = (.ok lv s₁, inp₁, o₁) →
    eval (fuel + 1) tty (.and_ l r) env st inp =
      (match eval fuel tty r env s₁ inp₁ with
       | (.ok rv s₂, inp₂, o₂) =>
         match lv, rv with
         | .bool b₁, .bool b₂ => (.ok (.bool (b₁ && b₂)) s₂, inp₂, o₁ ++ o₂)
         | _, _ => (.err .typeMismatch, inp₂, o₁ ++ o₂)
       | (.err er, inp₂, o₂) => (.err er, inp₂, o₁ ++ o₂))

/-- `Or` passes the caller's store to its left operand and the left run's
store to the right operand (interp.py lines 186-191). -/
def OrThreadsStore : Prop :=
  ∀ fuel tty l r env st inp lv s₁ inp₁ o₁,
    eval fuel tty l env st inp = (.ok lv s₁, inp₁, o₁) →
    eval (fuel + 1) tty (.or_ l r) env st inp =
      (match eval fuel tty r env s₁ inp₁ with
       | (.ok rv s₂, inp₂, o₂) =>
         match lv, rv with
         | .bool b₁, .bool b₂ => (.ok (.bool (b₁ || b₂)) s₂, inp₂, o₁ ++ o₂)
         | _, _ => (.err .typeMismatch, inp₂, o₁ ++ o₂)
       | (.err er, inp₂, o₂) => (.err er, inp₂, o₁ ++ o₂))

/-- `Not` passes the caller's store to its operand and returns the operand
run's store (interp.py lines 193-197). -/
def NotThreadsStore : Prop :=
  ∀ fuel tty e env st inp v s₁ inp₁ o₁,
    eval fuel tty e env st inp = (.ok v s₁, inp₁, o₁) →
    eval (fuel + 1) tty (.not_ e) env st inp =
      (match v with
       | .bool b => (.ok (.bool (!b)) s₁, inp₁, o₁)
       | _ => (.err .typeMismatch, inp₁, o₁))

/-- `Show` passes the caller's store to its operand and returns the operand
run's store (interp.py lines 268-271). -/
def ShowThreadsStore : Prop :=
  ∀ fuel tty e env st inp v s₁ inp₁ o₁,
    eval fuel tty e env st inp = (.ok v s₁, inp₁, o₁) →
    eval (fuel + 1) tty (.showE e) env st inp = (.ok v s₁, inp₁, o₁ ++ [v])

/-- `Assign` to a name already present in the store passes the caller's
store to the value expression and writes the value into the store that run
produces (interp.py lines 256-262). -/
def AssignThreadsStore : Prop :=
  ∀ fuel tty n ve env st inp w,
    lookupEnv st n = some w →
    eval (fuel + 1) tty (.assign n ve) env st inp =
      (match eval fuel tty ve env st inp with
       | (.ok v s₂, inp₁, o₁) => (.ok v (setEnv s₂ n v), inp₁, o₁)
       | (.err er, inp₁, o₁) => (.err er, inp₁, o₁))

/-- The recursive factorial program of the specification:
`Letfun("fact","n", If(Eq(Name("n"),Lit(0)), Lit(1),
Mul(Name("n"), App(Name("fact"), Sub(Name("n"),Lit(1))))),
App(Name("fact"), Lit(5)))`. -/
def factExpr : Expr :=
  .letfun ("fact") ("n")
    (.ifE (.eq (.name ("n")) (.lit (.int 0)))
      (.lit (.int 1))
      (.mul (.name ("n"))
        (.app (.name ("fact")) (.sub (.name ("n")) (.lit (.int 1))))))
    (.app (.name ("fact")) (.lit (.int 5)))


theorem drops_add (l r : Expr) : DropsStore (.add l r) := by
  intro fuel tty env st inp
  cases fuel with
  | zero => rfl
  | succ n =>
    rcases hL : eval n tty l env [] inp with ⟨resL, inp₁, o₁⟩
    cases resL with
    | err er => simp [eval, hL]
    | ok lv sL =>
      rcases hR : eval n tty r env [] inp₁ with ⟨resR, inp₂, o₂⟩
      cases resR with
      | err er => simp [eval, hL, hR]
      | ok rv sR => cases hA : pyAdd lv rv <;> simp [eval, hL, hR, hA]

theorem drops_sub (l r : Expr) : DropsStore (.sub l r) := by
  intro fuel tty env st inp
  cases fuel with
  | zero => rfl
  | succ n =>
    rcases hL : eval n tty l env [] inp with ⟨resL, inp₁, o₁⟩
    cases resL with
    | err er => simp [eval, hL]
    | ok lv sL =>
      rcases hR : eval n tty r env [] inp₁ with ⟨resR, inp₂, o₂⟩
      cases resR with
      | err er => simp [eval, hL, hR]
      | ok rv sR => cases hA : pySub lv rv <;> simp [eval, hL, hR, hA]

theorem drops_mul (l r : Expr) : DropsStore (.mul l r) := by
  intro fuel tty env st inp
  cases fuel with
  | zero => rfl
  | succ n =>
    rcases hL : eval n tty l env [] inp with ⟨resL, inp₁, o₁⟩
    cases resL with
    | err er => simp [eval, hL]
    | ok lv sL =>
      rcases hR : eval n tty r env [] inp₁ with ⟨resR, inp₂, o₂⟩
      cases resR with
      | err er => simp [eval, hL, hR]
      | ok rv sR => cases hA : pyMul lv rv <;> simp [eval, hL, hR, hA]

theorem drops_div (l r : Expr) : DropsStore (.div l r) := by
  intro fuel tty env st inp
  cases fuel with
  | zero => rfl
  | succ n =>
    rcases hR : eval n tty r env [] inp with ⟨resR, inp₁, o₁⟩
    cases resR with
    | err er => simp [eval, hR]
    | ok rv sR =>
      cases hz : pyEq rv (.int 0) with
      | true => simp [eval, hR, hz]
      | false =>
        rcases hL : eval n tty l env [] inp₁ with ⟨resL, inp₂, o₂⟩
        cases resL with
        | err er => simp [eval, hR, hz, hL]
        | ok lv sL => cases hD : pyDiv lv rv <;> simp [eval, hR, hz, hL, hD]

theorem drops_neg (e : Expr) : DropsStore (.neg e) := by
  intro fuel tty env st inp
  cases fuel with
  | zero => rfl
  | succ n =>
    rcases hE : eval n tty e env [] inp with ⟨res, inp₁, o₁⟩
    cases res with
    | err er => simp [eval, hE]
    | ok v sV => cases hN : pyNeg v <;> simp [eval, hE, hN]

theorem drops_eq (l r : Expr) : DropsStore (.eq l r) := by
  intro fuel tty env st inp
  cases fuel with
  | zero => rfl
  | succ n =>
    cases hc : isEqOrLt l with
    | true => simp [eval, hc]
    | false =>
      rcases hL : eval n tty l env [] inp with ⟨resL, inp₁, o₁⟩
      cases resL with
      | err er => simp [eval, hc, hL]
      | ok lv sL =>
        rcases hR : eval n tty r env [] inp₁ with ⟨resR, inp₂, o₂⟩
        cases resR with
        | err er => simp [eval, hc, hL, hR]
        | ok rv sR => simp [eval, hc, hL, hR]

theorem drops_lt (l r : Expr) : DropsStore (.lt l r) := by
  intro fuel tty env st inp
  cases fuel with
  | zero => rfl
  | succ n =>
    rcases hL : eval n tty l env [] inp with ⟨resL, inp₁, o₁⟩
    cases resL with
    | err er => simp [eval, hL]
    | ok lv sL =>
      rcases hR : eval n tty r env [] inp₁ with ⟨resR, inp₂, o₂⟩
      cases resR with
      | err er => simp [eval, hL, hR]
      | ok rv sR => cases hA : pyLt lv rv <;> simp [eval, hL, hR, hA]

theorem drops_concat (l r : Expr) : DropsStore (.concat l r) := by
  intro fuel tty env st inp
  cases fuel with
  | zero => rfl
  | succ n =>
    rcases hL : eval n tty l env [] inp with ⟨resL, inp₁, o₁⟩
    cases resL with
    | err er => simp [eval, hL]
    | ok lv sL =>
      rcases hR : eval n tty r env [] inp₁ with ⟨resR, inp₂, o₂⟩
      cases resR with
      | err er => simp [eval, hL, hR]
      | ok rv sR => cases lv <;> cases rv <;> simp [eval, hL, hR]

theorem drops_replace (se te re : Expr) : DropsStore (.replace se te re) := by
  intro fuel tty env st inp
  cases fuel with
  | zero => rfl
  | succ n =>
    rcases hS : eval n tty se env [] inp with ⟨resS, inp₁, o₁⟩
    cases resS with
    | err er => simp [eval, hS]
    | ok sv sS =>
      rcases hT : eval n tty te env [] inp₁ with ⟨resT, inp₂, o₂⟩
      cases resT with
      | err er => simp [eval, hS, hT]
      | ok tv sT =>
        rcases hR : eval n tty re env [] inp₂ with ⟨resR, inp₃, o₃⟩
        cases resR with
        | err er => simp [eval, hS, hT, hR]
        | ok rv sR => cases sv <;> cases tv <;> cases rv <;> simp [eval, hS, hT, hR]

theorem drops_letE (nm : String) (ve body : Expr) : DropsStore (.letE nm ve body) := by
  intro fuel tty env st inp
  cases fuel with
  | zero => rfl
  | succ n =>
    rcases hV : eval n tty ve env [] inp with ⟨resV, inp₁, o₁⟩
    cases resV with
    | err er => simp [eval, hV]
    | ok v sV =>
      rcases hB : eval n tty body (setEnv env nm v) [] inp₁ with ⟨resB, inp₂, o₂⟩
      cases resB with
      | err er => simp [eval, hV, hB]
      | ok bv sB => simp [eval, hV, hB]

theorem drops_letfun (nm p : String) (body ie : Expr) : DropsStore (.letfun nm p body ie) := by
  intro fuel tty env st inp
  cases fuel with
  | zero => rfl
  | succ n =>
    rcases hI : eval n tty ie (setEnv env nm (.closure nm p body env)) [] inp with ⟨resI, inp₁, o₁⟩
    cases resI with
    | err er => simp [eval, hI]
    | ok v sI => simp [eval, hI]

theorem drops_app (fe ae : Expr) : DropsStore (.app fe ae) := by
  intro fuel tty env st inp
  cases fuel with
  | zero => rfl
  | succ n =>
    rcases hF : eval n tty fe env [] inp with ⟨resF, inp₁, o₁⟩
    cases resF with
    | err er => simp [eval, hF]
    | ok fv sF =>
      rcases hA : eval n tty ae env [] inp₁ with ⟨resA, inp₂, o₂⟩
      cases resA with
      | err er => simp [eval, hF, hA]
      | ok av sA =>
        cases fv with
        | closure fn p body cenv =>
          rcases hB : eval n tty body
              (setEnv (setEnv cenv fn (.closure fn p body cenv)) p av) [] inp₂ with ⟨resB, inp₃, o₃⟩
          cases resB with
          | err er => simp [eval, hF, hA, hB]
          | ok bv sB => simp [eval, hF, hA, hB]
        | int m => simp [eval, hF, hA]
        | bool b => simp [eval, hF, hA]
        | str s => simp [eval, hF, hA]

theorem drops_reverseStr (e : Expr) : DropsStore (.reverseStr e) := by
  intro fuel tty env st inp
  cases fuel with
  | zero => rfl
  | succ n =>
    rcases hE : eval n tty e env [] inp with ⟨res, inp₁, o₁⟩
    cases res with
    | err er => simp [eval, hE]
    | ok v sV => cases v <;> simp [eval, hE]

theorem drops_lengthStr (e : Expr) : DropsStore (.lengthStr e) := by
  intro fuel tty env st inp
  cases fuel with
  | zero => rfl
  | succ n =>
    rcases hE : eval n tty e env [] inp with ⟨res, inp₁, o₁⟩
    cases res with
    | err er => simp [eval, hE]
    | ok v sV => cases v <;> simp [eval, hE]


theorem seq_threads : SeqThreadsStore := by
  intro fuel tty a b env st inp v₁ s₁ inp₁ o₁ h
  rcases hB : eval fuel tty b env s₁ inp₁ with ⟨resB, inp₂, o₂⟩
  simp [eval, h, hB]

theorem if_threads : IfThreadsStore := by
  intro fuel tty c t e env st inp bv s₁ inp₁ o₁ h
  rcases hB : eval fuel tty (if bv then t else e) env s₁ inp₁ with ⟨resB, inp₂, o₂⟩
  simp [eval, h, hB]

theorem and_threads : AndThreadsStore := by
  intro fuel tty l r env st inp lv s₁ inp₁ o₁ h
  rcases hR : eval fuel tty r env s₁ inp₁ with ⟨resR, inp₂, o₂⟩
  cases resR with
  | err er => simp [eval, h, hR]
  | ok rv s₂ => cases lv <;> cases rv <;> simp [eval, h, hR]

theorem or_threads : OrThreadsStore := by
  intro fuel tty l r env st inp lv s₁ inp₁ o₁ h
  rcases hR : eval fuel tty r env s₁ inp₁ with ⟨resR, inp₂, o₂⟩
  cases resR with
  | err er => simp [eval, h, hR]
  | ok rv s₂ => cases lv <;> cases rv <;> simp [eval, h, hR]

theorem not_threads : NotThreadsStore := by
  intro fuel tty e env st inp v s₁ inp₁ o₁ h
  cases v <;> simp [eval, h]

theorem show_threads : ShowThreadsStore := by
  intro fuel tty e env st inp v s₁ inp₁ o₁ h
  simp [eval, h]

theorem assign_threads : AssignThreadsStore := by
  intro fuel tty nm ve env st inp w hw
  rcases hV : eval fuel tty ve env st inp with ⟨resV, inp₁, o₁⟩
  cases hEnvN : lookupEnv env nm with
  | none => cases resV <;> simp [eval, hw, hEnvN, hV]
  | some u => cases resV <;> simp [eval, hw, hEnvN, hV]


theorem ltr_add : LeftThenRight Expr.add := by
  intro fuel tty l r env st inp v s inpF out h
  rcases hL : eval fuel tty l env [] inp with ⟨resL, inp₁, o₁⟩
  cases resL with
  | err er => simp [eval, hL] at h
  | ok lv sL =>
    rcases hR : eval fuel tty r env [] inp₁ with ⟨resR, inp₂, o₂⟩
    cases resR with
    | err er => simp [eval, hL, hR] at h
    | ok rv sR =>
      cases hA : pyAdd lv rv with
      | none => simp [eval, hL, hR, hA] at h
      | some w =>
        simp [eval, hL, hR, hA] at h
        exact ⟨[], lv, sL, inp₁, o₁, [], rv, sR, inp₂, o₂, [], hL, hR, by simp [← h.2.2]⟩

theorem ltr_sub : LeftThenRight Expr.sub := by
  intro fuel tty l r env st inp v s inpF out h
  rcases hL : eval fuel tty l env [] inp with ⟨resL, inp₁, o₁⟩
  cases resL with
  | err er => simp [eval, hL] at h
  | ok lv sL =>
    rcases hR : eval fuel tty r env [] inp₁ with ⟨resR, inp₂, o₂⟩
    cases resR with
    | err er => simp [eval, hL, hR] at h
    | ok rv sR =>
      cases hA : pySub lv rv with
      | none => simp [eval, hL, hR, hA] at h
      | some w =>
        simp [eval, hL, hR, hA] at h
        exact ⟨[], lv, sL, inp₁, o₁, [], rv, sR, inp₂, o₂, [], hL, hR, by simp [← h.2.2]⟩

theorem ltr_mul : LeftThenRight Expr.mul := by
  intro fuel tty l r env st inp v s inpF out h
  rcases hL : eval fuel tty l env [] inp with ⟨resL, inp₁, o₁⟩
  cases resL with
  | err er => simp [eval, hL] at h
  | ok lv sL =>
    rcases hR : eval fuel tty r env [] inp₁ with ⟨resR, inp₂, o₂⟩
    cases resR with
    | err er => simp [eval, hL, hR] at h
    | ok rv sR =>
      cases hA : pyMul lv rv with
      | none => simp [eval, hL, hR, hA] at h
      | some w =>
        simp [eval, hL, hR, hA] at h
        exact ⟨[], lv, sL, inp₁, o₁, [], rv, sR, inp₂, o₂, [], hL, hR, by simp [← h.2.2]⟩

theorem ltr_and : LeftThenRight Expr.and_ := by
  intro fuel tty l r env st inp v s inpF out h
  rcases hL : eval fuel tty l env st inp with ⟨resL, inp₁, o₁⟩
  cases resL with
  | err er => simp [eval, hL] at h
  | ok lv sL =>
    rcases hR : eval fuel tty r env sL inp₁ with ⟨resR, inp₂, o₂⟩
    cases resR with
    | err er => simp [eval, hL, hR] at h
    | ok rv sR =>
      cases lv <;> cases rv <;> simp [eval, hL, hR] at h
      exact ⟨st, _, sL, inp₁, o₁, sL, _, sR, inp₂, o₂, [], hL, hR, by simp [← h.2.2]⟩

theorem ltr_or : LeftThenRight Expr.or_ := by
  intro fuel tty l r env st inp v s inpF out h
  rcases hL : eval fuel tty l env st inp with ⟨resL, inp₁, o₁⟩
  cases resL with
  | err er => simp [eval, hL] at h
  | ok lv sL =>
    rcases hR : eval fuel tty r env sL inp₁ with ⟨resR, inp₂, o₂⟩
    cases resR with
    | err er => simp [eval, hL, hR] at h
    | ok rv sR =>
      cases lv <;> cases rv <;> simp [eval, hL, hR] at h
      exact ⟨st, _, sL, inp₁, o₁, sL, _, sR, inp₂, o₂, [], hL, hR, by simp [← h.2.2]⟩

theorem ltr_eq : LeftThenRight Expr.eq := by
  intro fuel tty l r env st inp v s inpF out h
  cases hc : isEqOrLt l with
  | true => simp [eval, hc] at h
  | false =>
    rcases hL : eval fuel tty l env [] inp with ⟨resL, inp₁, o₁⟩
    cases resL with
    | err er => simp [eval, hc, hL] at h
    | ok lv sL =>
      rcases hR : eval fuel tty r env [] inp₁ with ⟨resR, inp₂, o₂⟩
      cases resR with
      | err er => simp [eval, hc, hL, hR] at h
      | ok rv sR =>
        simp [eval, hc, hL, hR] at h
        exact ⟨[], lv, sL, inp₁, o₁, [], rv, sR, inp₂, o₂, [], hL, hR, by simp [← h.2.2]⟩

theorem ltr_lt : LeftThenRight Expr.lt := by
  intro fuel tty l r env st inp v s inpF out h
  rcases hL : eval fuel tty l env [] inp with ⟨resL, inp₁, o₁⟩
  cases resL with
  | err er => simp [eval, hL] at h
  | ok lv sL =>
    rcases hR : eval fuel tty r env [] inp₁ with ⟨resR, inp₂, o₂⟩
    cases resR with
    | err er => simp [eval, hL, hR] at h
    | ok rv sR =>
      cases hA : pyLt lv rv with
      | none => simp [eval, hL, hR, hA] at h
      | some b =>
        simp [eval, hL, hR, hA] at h
        exact ⟨[], lv, sL, inp₁, o₁, [], rv, sR, inp₂, o₂, [], hL, hR, by simp [← h.2.2]⟩

theorem ltr_concat : LeftThenRight Expr.concat := by
  intro fuel tty l r env st inp v s inpF out h
  rcases hL : eval fuel tty l env [] inp with ⟨resL, inp₁, o₁⟩
  cases resL with
  | err er => simp [eval, hL] at h
  | ok lv sL =>
    rcases hR : eval fuel tty r env [] inp₁ with ⟨resR, inp₂, o₂⟩
    cases resR with
    | err er => simp [eval, hL, hR] at h
    | ok rv sR =>
      cases lv <;> cases rv <;> simp [eval, hL, hR] at h
      exact ⟨[], _, sL, inp₁, o₁, [], _, sR, inp₂, o₂, [], hL, hR, by simp [← h.2.2]⟩

theorem ltr_seq : LeftThenRight Expr.seq := by
  intro fuel tty l r env st inp v s inpF out h
  rcases hL : eval fuel tty l env st inp with ⟨resL, inp₁, o₁⟩
  cases resL with
  | err er => simp [eval, hL] at h
  | ok lv sL =>
    rcases hR : eval fuel tty r env sL inp₁ with ⟨resR, inp₂, o₂⟩
    simp [eval, hL, hR] at h
    obtain ⟨hres, hinp, hout⟩ := h
    rw [hres] at hR
    exact ⟨st, lv, sL, inp₁, o₁, sL, v, s, inp₂, o₂, [], hL, hR, by simp [← hout]⟩

theorem ltr_app : LeftThenRight Expr.app := by
  intro fuel tty l r env st inp v s inpF out h
  rcases hF : eval fuel tty l env [] inp with ⟨resF, inp₁, o₁⟩
  cases resF with
  | err er => simp [eval, hF] at h
  | ok fv sF =>
    rcases hA : eval fuel tty r env [] inp₁ with ⟨resA, inp₂, o₂⟩
    cases resA with
    | err er => simp [eval, hF, hA] at h
    | ok av sA =>
      cases fv with
      | closure fn p body cenv =>
        rcases hB : eval fuel tty body
            (setEnv (setEnv cenv fn (.closure fn p body cenv)) p av) [] inp₂ with ⟨resB, inp₃, o₃⟩
        cases resB with
        | err er => simp [eval, hF, hA, hB] at h
        | ok bv sB =>
          simp [eval, hF, hA, hB] at h
          exact ⟨[], _, sF, inp₁, o₁, [], av, sA, inp₂, o₂, o₃, hF, hA, by simp [← h.2.2]⟩
      | int m => simp [eval, hF, hA] at h
      | bool b => simp [eval, hF, hA] at h
      | str t => simp [eval, hF, hA] at h

theorem div_right_first : DivRightFirst := by
  intro fuel tty l r env st inp v s inpF out h
  rcases hR : eval fuel tty r env [] inp with ⟨resR, inp₁, o₁⟩
  cases resR with
  | err er => simp [eval, hR] at h
  | ok rv sR =>
    cases hz : pyEq rv (.int 0) with
    | true => simp [eval, hR, hz] at h
    | false =>
      rcases hL : eval fuel tty l env [] inp₁ with ⟨resL, inp₂, o₂⟩
      cases resL with
      | err er => simp [eval, hR, hz, hL] at h
      | ok lv sL =>
        cases hD : pyDiv lv rv with
        | none => simp [eval, hR, hz, hL, hD] at h
        | some w =>
          simp [eval, hR, hz, hL, hD] at h
          obtain ⟨hv, hinp, hout⟩ := h
          rw [hinp] at hL
          exact ⟨rv, sR, inp₁, o₁, lv, sL, o₂, rfl, hz, hL, by simp [← hout]⟩


/-- C1 (amended): evaluation is strictly left-to-right for the binary forms
Add, Sub, Mul, And, Or, Eq, Lt, Concat, Seq and App — the left operand is
fully evaluated, with its effects, before the right operand starts — but
`Div` is the exception: it evaluates its *right* operand first, performs the
zero-divisor check on it, and only then evaluates the left operand. -/
theorem C1_binary_evaluation_order :
    LeftThenRight Expr.add ∧ LeftThenRight Expr.sub ∧ LeftThenRight Expr.mul ∧
    LeftThenRight Expr.and_ ∧ LeftThenRight Expr.or_ ∧ LeftThenRight Expr.eq ∧
    LeftThenRight Expr.lt ∧ LeftThenRight Expr.concat ∧ LeftThenRight Expr.seq ∧
    LeftThenRight Expr.app ∧ DivRightFirst :=
  ⟨ltr_add, ltr_sub, ltr_mul, ltr_and, ltr_or, ltr_eq, ltr_lt, ltr_concat,
   ltr_seq, ltr_app, div_right_first⟩

/-- C1 counterexample: for `Div(Show(1), Show(2))` the right operand's output
appears *before* the left operand's — the trace is `[2, 1]`, while `Show(1)`
alone traces `[1]`, so the left operand's effects do not precede the right
operand's evaluation as the claim states. -/
theorem C1_counterexample :
    eval 2 false (.showE (.lit (.int 1))) [] [] [] = (.ok (.int 1) [], [], [.int 1]) ∧
    eval 3 false (.div (.showE (.lit (.int 1))) (.showE (.lit (.int 2)))) [] [] []
      = (.ok (.int 0) [], [], [.int 2, .int 1]) :=
  ⟨rfl, rfl⟩

/-- C1 witness: the `Div` ordering statement instantiated on
`Div(Show(1), Show(2))`. -/
theorem C1_witness :
    ∃ v₂ s₂ inp₁ o₂ v₁ s₁ o₁,
      eval 2 false (.showE (.lit (.int 2))) [] [] [] = (.ok v₂ s₂, inp₁, o₂) ∧
      pyEq v₂ (.int 0) = false ∧
      eval 2 false (.showE (.lit (.int 1))) [] [] inp₁ = (.ok v₁ s₁, [], o₁) ∧
      ([Value.int 2, Value.int 1] : List Value) = o₂ ++ o₁ :=
  C1_binary_evaluation_order.2.2.2.2.2.2.2.2.2.2 2 false
    (.showE (.lit (.int 1))) (.showE (.lit (.int 2))) [] [] []
    (.int 0) [] [] [.int 2, .int 1] rfl

/-- C2: for integer literals, `Div(Lit a, Lit b)` with `b ≠ 0` evaluates to
the floor division `Int.fdiv a b` (Python `//`), and `Div(Lit a, Lit 0)`
fails with `DivisionByZero`. -/
theorem C2_div_literals (fuel : Nat) (a b : Int) (tty : Bool) (env st : Env)
    (inp : List String) :
    (b ≠ 0 →
      eval (fuel + 2) tty (.div (.lit (.int a)) (.lit (.int b))) env st inp
        = (.ok (.int (Int.fdiv a b)) st, inp, [])) ∧
    eval (fuel + 2) tty (.div (.lit (.int a)) (.lit (.int 0))) env st inp
      = (.err .divisionByZero, inp, []) := by
  constructor
  · intro hb
    simp [eval, litToValue, pyEq, pyDiv, pyToNum, hb]
  · simp [eval, litToValue, pyEq]

/-- C2 witness: `7 // -2` is `-4` (floor, not truncation). -/
theorem C2_witness :
    eval 2 false (.div (.lit (.int 7)) (.lit (.int (-2)))) [] [] []
      = (.ok (.int (Int.fdiv 7 (-2))) [], [], []) :=
  (C2_div_literals 0 7 (-2) false [] [] []).1 (by decide)

/-- C3 counterexample: `Add(Lit "a", Lit "b")` evaluates to the string
`"ab"` instead of failing with a type error. -/
theorem C3_counterexample :
    eval 3 false (.add (.lit (.str ("a"))) (.lit (.str ("b")))) [] [] []
      = (.ok (.str ("ab")) [], [], []) := rfl

/-- C3 (amended): the arithmetic cases perform no `Int` variant check at all;
Python's host operator semantics apply instead.  Bool operands are treated as
the integers 0/1 (so `Add`, `Neg`, `Div` succeed on them), `Add` of two `Str`
values concatenates, `Mul` of an `Int` and a `Str` repeats the string, and
only genuinely unsupported combinations (e.g. `Int + Str`, `Str - Str`) fail,
with the host `TypeError`, never with an interpreter-raised type check. -/
theorem C3_arithmetic_host_semantics (fuel : Nat) (tty : Bool) (env st : Env)
    (inp : List String) (s t : String) (n : Int) (b₁ b₂ : Bool) :
    eval (fuel + 2) tty (.add (.lit (.str s)) (.lit (.str t))) env st inp
      = (.ok (.str (s ++ t)) st, inp, []) ∧
    eval (fuel + 2) tty (.add (.lit (.bool b₁)) (.lit (.bool b₂))) env st inp
      = (.ok (.int ((if b₁ then 1 else 0) + if b₂ then 1 else 0)) st, inp, []) ∧
    eval (fuel + 2) tty (.add (.lit (.int n)) (.lit (.str s))) env st inp
      = (.err .hostTypeError, inp, []) ∧
    eval (fuel + 2) tty (.mul (.lit (.int n)) (.lit (.str s))) env st inp
      = (.ok (.str (strRepeat s n)) st, inp, []) ∧
    eval (fuel + 2) tty (.sub (.lit (.str s)) (.lit (.str t))) env st inp
      = (.err .hostTypeError, inp, []) ∧
    eval (fuel + 2) tty (.neg (.lit (.bool b₁))) env st inp
      = (.ok (.int (-(if b₁ then 1 else 0))) st, inp, []) ∧
    eval (fuel + 2) tty (.div (.lit (.bool true)) (.lit (.bool true))) env st inp
      = (.ok (.int 1) st, inp, []) := by
  refine ⟨?_, ?_, ?_, ?_, ?_, ?_, ?_⟩ <;>
    simp [eval, litToValue, pyAdd, pySub, pyMul, pyNeg, pyDiv, pyToNum, pyEq]

/-- C4: `And` and `Or` are strict: given a successful run of the left operand
and a successful run of the right operand starting where the left one ended,
the compound always performs both runs — their outputs appear in order even
when the boolean type check then fails — and non-Bool operands yield
`TypeMismatch` only after both operands were evaluated. -/
theorem C4_and_or_strict (fuel : Nat) (tty : Bool) (l r : Expr) (env st : Env)
    (inp : List String) (lv : Value) (s₁ : Env) (inp₁ : List String) (o₁ : List Value)
    (rv : Value) (s₂ : Env) (inp₂ : List String) (o₂ : List Value)
    (hl : eval fuel tty l env st inp = (.ok lv s₁, inp₁, o₁))
    (hr : eval fuel tty r env s₁ inp₁ = (.ok rv s₂, inp₂, o₂)) :
    (eval (fuel + 1) tty (.and_ l r) env st inp =
      match lv, rv with
      | .bool b₁, .bool b₂ => (.ok (.bool (b₁ && b₂)) s₂, inp₂, o₁ ++ o₂)
      | _, _ => (.err .typeMismatch, inp₂, o₁ ++ o₂)) ∧
    (eval (fuel + 1) tty (.or_ l r) env st inp =
      match lv, rv with
      | .bool b₁, .bool b₂ => (.ok (.bool (b₁ || b₂)) s₂, inp₂, o₁ ++ o₂)
      | _, _ => (.err .typeMismatch, inp₂, o₁ ++ o₂)) := by
  constructor <;> cases lv <;> cases rv <;> simp [eval, hl, hr]

/-- C4 witness: with a false left operand, `And`/`Or` still evaluate the
right operand — both `Show` outputs appear. -/
theorem C4_witness :
    eval 3 false (.and_ (.showE (.lit (.bool false))) (.showE (.lit (.bool true)))) [] [] []
      = (.ok (.bool false) [], [], [.bool false, .bool true]) ∧
    eval 3 false (.or_ (.showE (.lit (.bool false))) (.showE (.lit (.bool true)))) [] [] []
      = (.ok (.bool true) [], [], [.bool false, .bool true]) := by
  have h := C4_and_or_strict 2 false (.showE (.lit (.bool false))) (.showE (.lit (.bool true)))
    [] [] [] (.bool false) [] [] [.bool false] (.bool true) [] [] [.bool true] rfl rfl
  exact ⟨h.1, h.2⟩

/-- C5: `Letfun` produces a self-referential binding, so the recursive
factorial program evaluates to 120 in the empty environment. -/
theorem C5_letfun_recursion_fact :
    eval 100 false factExpr [] [] [] = (.ok (.int 120) [], [], []) := rfl

/-- C6: `App` evaluates the function expression first; a non-closure callee
fails with `NotAFunction` (after the argument, evaluated in the caller's
environment, as the code does); a closure callee has its body evaluated in
the closure's captured environment (with its self binding re-established)
extended with the parameter bound to the argument value — never in the
caller's environment; and `App(Lit 5, Lit 10)` fails with `NotAFunction`. -/
theorem C6_app_semantics :
    (∀ fuel tty fe ae env st inp fv s₁ inp₁ o₁ av s₂ inp₂ o₂,
      eval fuel tty fe env [] inp = (.ok fv s₁, inp₁, o₁) →
      eval fuel tty ae env [] inp₁ = (.ok av s₂, inp₂, o₂) →
      isClosure fv = false →
      eval (fuel + 1) tty (.app fe ae) env st inp = (.err .notAFunction, inp₂, o₁ ++ o₂)) ∧
    (∀ fuel tty fe ae env st inp fn p body cenv s₁ inp₁ o₁ av s₂ inp₂ o₂,
      eval fuel tty fe env [] inp = (.ok (.closure fn p body cenv) s₁, inp₁, o₁) →
      eval fuel tty ae env [] inp₁ = (.ok av s₂, inp₂, o₂) →
      eval (fuel + 1) tty (.app fe ae) env st inp =
        (match eval fuel tty body
            (setEnv (setEnv cenv fn (.closure fn p body cenv)) p av) [] inp₂ with
         | (.ok bv _, inp₃, o₃) => (.ok bv st, inp₃, o₁ ++ o₂ ++ o₃)
         | (.err er, inp₃, o₃) => (.err er, inp₃, o₁ ++ o₂ ++ o₃))) ∧
    eval 2 false (.app (.lit (.int 5)) (.lit (.int 10))) [] [] []
      = (.err .notAFunction, [], []) := by
  refine ⟨?_, ?_, rfl⟩
  · intro fuel tty fe ae env st inp fv s₁ inp₁ o₁ av s₂ inp₂ o₂ hf ha hnc
    cases fv with
    | closure fn p body cenv => simp [isClosure] at hnc
    | int m => simp [eval, hf, ha]
    | bool b => simp [eval, hf, ha]
    | str t => simp [eval, hf, ha]
  · intro fuel tty fe ae env st inp fn p body cenv s₁ inp₁ o₁ av s₂ inp₂ o₂ hf ha
    rcases hB : eval fuel tty body
        (setEnv (setEnv cenv fn (.closure fn p body cenv)) p av) [] inp₂ with ⟨resB, inp₃, o₃⟩
    cases resB with
    | err er => simp [eval, hf, ha, hB]
    | ok bv sB => simp [eval, hf, ha, hB]

/-- C6 witness: a Bool callee fails with `NotAFunction`, and applying a
closure bound to `f` evaluates the body in the closure's environment
extended with the parameter. -/
theorem C6_witness :
    eval 2 false (.app (.lit (.bool true)) (.lit (.int 1))) [] [] []
      = (.err .notAFunction, [], []) ∧
    eval 2 false (.app (.name ("f")) (.lit (.int 3)))
        [(("f"), .closure ("f") ("x") (.name ("x")) [])] [] []
      = (.ok (.int 3) [], [], []) := by
  constructor
  · exact C6_app_semantics.1 1 false _ _ [] [] [] (.bool true) [] [] []
      (.int 1) [] [] [] rfl rfl rfl
  · have h := C6_app_semantics.2.1 1 false (.name ("f")) (.lit (.int 3))
      [(("f"), .closure ("f") ("x") (.name ("x")) [])] [] []
      ("f") ("x") (.name ("x")) [] [] [] [] (.int 3) [] [] [] rfl rfl
    simpa using h

/-- C7: an `Eq` whose left operand is syntactically an `Eq` or `Lt` node
fails with `ChainedComparison` at entry — no operand is evaluated, no input
is consumed and no output is produced — and the concrete program
`Eq(Eq(1,1), true)` fails that way. -/
theorem C7_chained_comparison (fuel : Nat) (tty : Bool) (l₁ l₂ r : Expr)
    (env st : Env) (inp : List String) :
    eval (fuel + 1) tty (.eq (.eq l₁ l₂) r) env st inp
      = (.err .chainedComparison, inp, []) ∧
    eval (fuel + 1) tty (.eq (.lt l₁ l₂) r) env st inp
      = (.err .chainedComparison, inp, []) ∧
    eval 2 false (.eq (.eq (.lit (.int 1)) (.lit (.int 1))) (.lit (.bool true))) [] [] []
      = (.err .chainedComparison, [], []) := by
  refine ⟨?_, ?_, rfl⟩ <;> simp [eval, isEqOrLt]

/-- C8 counterexample: `Eq(Lit 1, Lit "a")` evaluates to the boolean `false`
instead of being an error. -/
theorem C8_counterexample :
    eval 2 false (.eq (.lit (.int 1)) (.lit (.str ("a")))) [] [] []
      = (.ok (.bool false) [], [], []) := rfl

/-- C8 (amended): `Eq` on values never errors after the chained-comparison
check: once both operands evaluate, the result is the boolean `pyEq` of the
values, where `Int` and `Bool` compare numerically across variants
(`true = 1`) and all other cross-variant comparisons are `false`. -/
theorem C8_eq_cross_variant (fuel : Nat) (tty : Bool) (l r : Expr) (env st : Env)
    (inp inp₁ inp₂ : List String) (lv rv : Value) (s₁ s₂ : Env)
    (o₁ o₂ : List Value) (n : Int) (b : Bool) (s : String) :
    (isEqOrLt l = false →
      eval fuel tty l env [] inp = (.ok lv s₁, inp₁, o₁) →
      eval fuel tty r env [] inp₁ = (.ok rv s₂, inp₂, o₂) →
      eval (fuel + 1) tty (.eq l r) env st inp
        = (.ok (.bool (pyEq lv rv)) st, inp₂, o₁ ++ o₂)) ∧
    pyEq (.int n) (.str s) = false ∧
    pyEq (.str s) (.bool b) = false ∧
    pyEq (.bool b) (.int n) = ((if b then (1 : Int) else 0) == n) ∧
    pyEq (.int n) (.closure ("f") ("x") (.lit (.int 0)) []) = false := by
  refine ⟨?_, rfl, rfl, rfl, rfl⟩
  intro hc hl hr
  simp [eval, hc, hl, hr]

/-- C8 witness: `Eq(Lit true, Lit 1)` evaluates to `pyEq true 1`, the
boolean result of Python's numeric cross-variant comparison. -/
theorem C8_witness :
    eval 2 false (.eq (.lit (.bool true)) (.lit (.int 1))) [] [] []
      = (.ok (.bool (pyEq (.bool true) (.int 1))) [], [], []) :=
  (C8_eq_cross_variant 1 false (.lit (.bool true)) (.lit (.int 1)) [] [] [] [] []
    (.bool true) (.int 1) [] [] [] [] 0 true ("")).1 rfl rfl rfl

/-- C9 counterexample: with stdin not a tty, `Read` returns `42` without
consuming anything from the pending input — the input line `"7"` is still
there afterwards — so a `Read` does not always obtain its integer from the
external input source. -/
theorem C9_counterexample :
    eval 1 false .read [] [] [("7")] = (.ok (.int 42) [], [("7")], []) := rfl

/-- C9 (amended): when stdin is a tty, each `Read` consumes exactly one input
line and yields its integer value, failing with `InvalidInput` when the line
does not parse as an integer (and `EOFError` on exhausted input); when stdin
is not a tty, `Read` returns `42` and consumes nothing. -/
theorem C9_read_semantics (fuel : Nat) (env st : Env) (inp rest : List String)
    (s : String) :
    (eval (fuel + 1) true .read env st (s :: rest) =
      match pyToInt s with
      | some n => (.ok (.int n) st, rest, [])
      | none => (.err .invalidInput, rest, [])) ∧
    eval (fuel + 1) false .read env st inp = (.ok (.int 42) st, inp, []) ∧
    eval (fuel + 1) true .read env st [] = (.err .eofAbort, [], []) :=
  ⟨rfl, rfl, rfl⟩

/-- C10: the recursive calls for the operands of Add, Sub, Mul, Div, Neg, Eq,
Lt, Concat, Replace (and ReverseStr/LengthStr) and for the sub-expressions of
Let, Letfun and App omit the store, so those sub-expressions run against a
fresh empty store and the caller's store comes back unchanged (in particular
an `Assign` inside such a sub-expression does not affect the caller's store),
while Seq, If, And, Or, Not, Show and Assign pass the caller's store down. -/
theorem C10_store_threading :
    (∀ l r, DropsStore (.add l r)) ∧ (∀ l r, DropsStore (.sub l r)) ∧
    (∀ l r, DropsStore (.mul l r)) ∧ (∀ l r, DropsStore (.div l r)) ∧
    (∀ e, DropsStore (.neg e)) ∧ (∀ l r, DropsStore (.eq l r)) ∧
    (∀ l r, DropsStore (.lt l r)) ∧ (∀ l r, DropsStore (.concat l r)) ∧
    (∀ a b c, DropsStore (.replace a b c)) ∧
    (∀ n ve body, DropsStore (.letE n ve body)) ∧
    (∀ n p body ie, DropsStore (.letfun n p body ie)) ∧
    (∀ f a, DropsStore (.app f a)) ∧
    (∀ e, DropsStore (.reverseStr e)) ∧ (∀ e, DropsStore (.lengthStr e)) ∧
    SeqThreadsStore ∧ IfThreadsStore ∧ AndThreadsStore ∧ OrThreadsStore ∧
    NotThreadsStore ∧ ShowThreadsStore ∧ AssignThreadsStore ∧
    eval 5 false (.add (.assign ("x") (.lit (.int 9))) (.lit (.int 1)))
        [(("x"), .int 1)] [(("x"), .int 5)] []
      = (.ok (.int 10) [(("x"), .int 5)], [], []) :=
  ⟨drops_add, drops_sub, drops_mul, drops_div, drops_neg, drops_eq, drops_lt,
   drops_concat, drops_replace, drops_letE, drops_letfun, drops_app,
   drops_reverseStr, drops_lengthStr, seq_threads, if_threads, and_threads,
   or_threads, not_threads, show_threads, assign_threads, rfl⟩

/-- C10 witness: `Assign` runs its value expression against the caller's
store and updates it, and `Seq` passes the caller's store through. -/
theorem C10_witness :
    eval 2 false (.assign ("x") (.lit (.int 9))) [] [(("x"), .int 5)] []
      = (.ok (.int 9) [(("x"), .int 9)], [], []) ∧
    eval 2 false (.seq (.lit (.int 0)) (.name ("y"))) [(("y"), .int 7)] [(("s"), .int 1)] []
      = (.ok (.int 7) [(("s"), .int 1)], [], []) := by
  constructor
  · have h := C10_store_threading.2.2.2.2.2.2.2.2.2.2.2.2.2.2.2.2.2.2.2.2.1
      1 false ("x") (.lit (.int 9)) [] [(("x"), .int 5)] [] (.int 5) rfl
    simpa using h
  · have h := C10_store_threading.2.2.2.2.2.2.2.2.2.2.2.2.2.2.1
      1 false (.lit (.int 0)) (.name ("y")) [(("y"), .int 7)] [(("s"), .int 1)] []
      (.int 0) [(("s"), .int 1)] [] [] rfl
    simpa using h

end Interp
